import Mathlib

/-!
# The `rebuild-index` command of restic (`cmd/restic/cmd_rebuild_index.go`)

A shallow embedding of `runRebuildIndex` and `rebuildIndex`.

The command talks to collaborators that live in other packages
(`repo.List`, `index.New`, `idx.Save`, `DeleteFilesChecked`, `OpenRepository`,
`lockRepoExclusive`, `unlockRepo`).  They are parameters of the embedding
(`Env`): each is a function on a world state `W` that returns its Go results
together with the next world.  The embedding threads the world through the
calls in program order and keeps a log of the calls and of the messages
printed, so that statements such as "`Save` is never called" are statements
about the log.

What a collaborator is handed is read from the collaborator's side: in the
environment `recording env` every collaborator notes, in the world, the
arguments it received and the results it returned, and `calls` is the list of
these notes after a run.

Go's `error` is `Option Error` (`none` is `nil`), `uint64` is `Nat` reduced
modulo `2 ^ 64`, `restic.IDs` is `List ID`, `restic.IDSet` is `Finset ID`.
Contexts and cancellation are not modelled.
-/

namespace Restic

/-! ## Data model -/

/-- The object kinds the command names: `restic.PackFile` and `restic.IndexFile`. -/
inductive FileType where
  | PackFile
  | IndexFile
  deriving DecidableEq

/-- A non-nil Go error.  `ext` is an error produced by a collaborator,
`Fatalf` is the value built by `errors.Fatalf format arg`. -/
inductive Error where
  | ext (code : Nat)
  | Fatalf (format : String) (arg : Error)
  deriving DecidableEq

/-- The fields of `GlobalOptions` the command reads. -/
structure GlobalOptions where
  Quiet : Bool
  verbosity : Nat
  deriving DecidableEq

/-- The progress counter built by `newProgressMax(show, max, description)`,
kept as the record of its three arguments. -/
structure Progress where
  visible : Bool
  max : Nat
  description : String
  deriving DecidableEq

/-- The constructor `newProgressMax`. -/
def newProgressMax (visible : Bool) (max : Nat) (description : String) : Progress :=
  ⟨visible, max, description⟩

/-- An argument of a `Verbosef` / `Printf` call. -/
inductive Arg (ID : Type) where
  | id (x : ID)
  | ids (xs : List ID)
  | int (n : Nat)
  deriving DecidableEq

/-- One call made by the command, with its arguments and what it returned. -/
inductive Event (ID Idx : Type) where
  | Verbosef (format : String) (args : List (Arg ID))
  | Printf (format : String) (args : List (Arg ID))
  | OpenRepository (gopts : GlobalOptions) (err : Option Error)
  | lockRepoExclusive (err : Option Error)
  | unlockRepo
  | ListFiles (t : FileType) (visited : List (ID × Int)) (err : Option Error)
  | New (ignorePacks : Finset ID) (bar : Progress) (idx : Idx) (invalidFiles : List ID)
      (err : Option Error)
  | Save (idx : Idx) (supersedes : List ID) (ids : List ID) (err : Option Error)
  | DeleteFilesChecked (gopts : GlobalOptions) (fileList : Finset ID) (t : FileType)
      (err : Option Error)
  deriving DecidableEq

/-- Result of a collaborator that returns only an error. -/
structure CallResult (W : Type) where
  err : Option Error
  world : W

/-- Result of `repo.List(ctx, t, fn)`: the `(id, size)` pairs handed to the
visitor, in order, and the error returned. -/
structure ListResult (ID W : Type) where
  visited : List (ID × Int)
  err : Option Error
  world : W

/-- Result of `index.New`: `(idx, invalidFiles, err)`. -/
structure NewResult (ID Idx W : Type) where
  idx : Idx
  invalidFiles : List ID
  err : Option Error
  world : W

/-- Result of `idx.Save`: `(ids, err)`. -/
structure SaveResult (ID W : Type) where
  ids : List ID
  err : Option Error
  world : W

/-- The collaborators of the command, as functions on the world state. -/
structure Env (ID Idx W : Type) where
  OpenRepository : GlobalOptions → W → CallResult W
  lockRepoExclusive : W → CallResult W
  unlockRepo : W → W
  New : Finset ID → Progress → W → NewResult ID Idx W
  Save : Idx → List ID → W → SaveResult ID W
  DeleteFilesChecked : GlobalOptions → Finset ID → FileType → W → CallResult W
  List : FileType → W → ListResult ID W

/-- What a run of the command leaves behind: the returned error, the calls
made, and the final world. -/
structure Outcome (ID Idx W : Type) where
  err : Option Error
  log : List (Event ID Idx)
  world : W

/-! ## Machine arithmetic and small helpers -/

/-- Subtraction of two `uint64` values. -/
def uint64Sub (a b : Nat) : Nat := (a + 2 ^ 64 - b % 2 ^ 64) % 2 ^ 64

/-- The conversion `uint64(n)` of a non-negative `int`. -/
def uint64OfInt (n : Nat) : Nat := n % 2 ^ 64

/-- The visitor of the pack listing: `packs++` on a `uint64`. -/
def countPack {ID : Type} (packs : Nat) (_ : ID × Int) : Nat := (packs + 1) % 2 ^ 64

/-- The visitor of the index listing: `supersedes = append(supersedes, id)`. -/
def collect {ID : Type} (supersedes : List ID) (e : ID × Int) : List ID := supersedes ++ [e.1]

/-- The constructor `restic.NewIDSet(ids...)`. -/
def NewIDSet {ID : Type} [DecidableEq ID] (ids : List ID) : Finset ID := ids.toFinset

/-! ## The command -/

/-- The report of the skipped packs: when `globalOptions.verbosity >= 2`, one
`Printf` per element of `invalidFiles`, in order. -/
def reportInvalid {ID Idx : Type} (globalOptions : GlobalOptions) (invalidFiles : List ID) :
    List (Event ID Idx) :=
  if globalOptions.verbosity ≥ 2 then
    invalidFiles.map fun id => .Printf "skipped incomplete pack file: %v\n" [.id id]
  else []

/-- The function `rebuildIndex(ctx, repo, ignorePacks)`. -/
def rebuildIndex {ID Idx W : Type} [DecidableEq ID] (env : Env ID Idx W)
    (globalOptions : GlobalOptions) (ignorePacks : Finset ID) (w : W) : Outcome ID Idx W :=
  let log0 : List (Event ID Idx) := [.Verbosef "counting files in repo\n" []]
  let l1 := env.List .PackFile w
  let packs := l1.visited.foldl countPack 0
  let log1 := log0 ++ [.ListFiles .PackFile l1.visited l1.err]
  match l1.err with
  | some err => ⟨some err, log1, l1.world⟩
  | none =>
    let bar := newProgressMax (!globalOptions.Quiet)
      (uint64Sub packs (uint64OfInt ignorePacks.card)) "packs"
    let n := env.New ignorePacks bar l1.world
    let log2 := log1 ++ [.New ignorePacks bar n.idx n.invalidFiles n.err]
    match n.err with
    | some err => ⟨some err, log2, n.world⟩
    | none =>
      let log3 := log2 ++ reportInvalid globalOptions n.invalidFiles ++
        [.Verbosef "finding old index files\n" []]
      let l2 := env.List .IndexFile n.world
      let supersedes := l2.visited.foldl collect []
      let log4 := log3 ++ [.ListFiles .IndexFile l2.visited l2.err]
      match l2.err with
      | some err => ⟨some err, log4, l2.world⟩
      | none =>
        let s := env.Save n.idx supersedes l2.world
        let log5 := log4 ++ [.Save n.idx supersedes s.ids s.err]
        match s.err with
        | some err =>
          ⟨some (.Fatalf "unable to save index, last error was: %v" err), log5, s.world⟩
        | none =>
          let log6 := log5 ++
            [.Verbosef "saved new indexes as %v\n" [.ids s.ids],
             .Verbosef "remove %d old index files\n" [.int supersedes.length]]
          let d := env.DeleteFilesChecked globalOptions (NewIDSet supersedes) .IndexFile s.world
          let log7 := log6 ++
            [.DeleteFilesChecked globalOptions (NewIDSet supersedes) .IndexFile d.err]
          match d.err with
          | some err => ⟨some (.Fatalf "unable to remove an old index: %v\n" err), log7, d.world⟩
          | none => ⟨none, log7, d.world⟩

/-- The function `runRebuildIndex(gopts)`; `globalOptions` is the package-level
variable that `rebuildIndex` reads.  The deferred `unlockRepo` runs on every
exit after the lock attempt. -/
def runRebuildIndex {ID Idx W : Type} [DecidableEq ID] (env : Env ID Idx W)
    (globalOptions gopts : GlobalOptions) (w : W) : Outcome ID Idx W :=
  let o := env.OpenRepository gopts w
  let log0 : List (Event ID Idx) := [.OpenRepository gopts o.err]
  match o.err with
  | some err => ⟨some err, log0, o.world⟩
  | none =>
    let l := env.lockRepoExclusive o.world
    let log1 := log0 ++ [.lockRepoExclusive l.err]
    match l.err with
    | some err => ⟨some err, log1 ++ [.unlockRepo], env.unlockRepo l.world⟩
    | none =>
      let r := rebuildIndex env globalOptions (NewIDSet []) l.world
      ⟨r.err, log1 ++ r.log ++ [.unlockRepo], env.unlockRepo r.world⟩

/-! ## Reading the log -/

/-- The `supersedes` arguments of the `Save` calls in a log, in order. -/
def saveArgs {ID Idx : Type} : List (Event ID Idx) → List (List ID)
  | [] => []
  | .Save _ supersedes _ _ :: es => supersedes :: saveArgs es
  | _ :: es => saveArgs es

/-- The `(fileList, fileType)` arguments of the `DeleteFilesChecked` calls in a
log, in order. -/
def deleteArgs {ID Idx : Type} : List (Event ID Idx) → List (Finset ID × FileType)
  | [] => []
  | .DeleteFilesChecked _ fileList t _ :: es => (fileList, t) :: deleteArgs es
  | _ :: es => deleteArgs es

/-- The progress bars handed to the `index.New` calls in a log, in order. -/
def newArgs {ID Idx : Type} : List (Event ID Idx) → List (Finset ID × Progress)
  | [] => []
  | .New ignorePacks bar _ _ _ :: es => (ignorePacks, bar) :: newArgs es
  | _ :: es => newArgs es

/-- Modelled from the spec: the storage backend (its code is outside this
file).  The stored pack objects and index objects, each a set of identifiers
kept as a duplicate-free list in listing order. -/
structure Backend (ID : Type) where
  packs : List ID
  indexes : List ID
  packs_nodup : packs.Nodup
  indexes_nodup : indexes.Nodup

/-- Modelled from the spec: what the backend operations of one run do, chosen
by the environment: object sizes, a listing fault (fail after visiting `n`
objects), the results of the scan, the shards `Save` managed to write and its
error, the objects whose removal fails and the error reported for them. -/
structure Script (ID Idx : Type) where
  size : FileType → ID → Int
  listFault : FileType → Option (Nat × Error)
  idx : Idx
  invalidFiles : List ID
  newErr : Option Error
  written : List ID
  saveErr : Option Error
  removeFails : Finset ID
  removeErr : Error
  openErr : Option Error
  lockErr : Option Error

/-- The objects of one kind stored in a backend. -/
def Backend.files {ID : Type} (b : Backend ID) : FileType → List ID
  | .PackFile => b.packs
  | .IndexFile => b.indexes

/-- Modelled from the spec: `List(objectType, visitor)` (section 6) enumerates
the stored objects of the given type, invoking the visitor with
(identifier, size) for each; it is a pure read, and a fault ends it early with
an error. -/
def Backend.list {ID Idx : Type} (sc : Script ID Idx) (t : FileType) (b : Backend ID) :
    ListResult ID (Backend ID) :=
  match sc.listFault t with
  | none => ⟨(b.files t).map fun id => (id, sc.size t id), none, b⟩
  | some (n, err) => ⟨((b.files t).take n).map fun id => (id, sc.size t id), some err, b⟩

/-- Modelled from the spec: the scan (sections 4.2, 4.3) reads packs and writes
nothing; its results are those of the script. -/
def Backend.scan {ID Idx : Type} (sc : Script ID Idx) (_ : Finset ID) (_ : Progress)
    (b : Backend ID) : NewResult ID Idx (Backend ID) :=
  ⟨sc.idx, sc.invalidFiles, sc.newErr, b⟩

/-- Modelled from the spec: the persister (section 4.6) inserts the shards it
wrote into the backend's index objects and returns their identifiers only when
all were written; on a failure the shards already written stay in place. -/
def Backend.save {ID Idx : Type} [DecidableEq ID] (sc : Script ID Idx) (_ : Idx)
    (_ : List ID) (b : Backend ID) : SaveResult ID (Backend ID) :=
  ⟨if sc.saveErr = none then sc.written else [], sc.saveErr,
   { b with indexes := sc.written ∪ b.indexes
            indexes_nodup := List.Nodup.union _ b.indexes_nodup }⟩

/-- Modelled from the spec: retirement (section 4.7) attempts the removal of
each object of the list; a removal that succeeds takes the object out of the
backend, one that fails leaves it and is reported as an error, with no roll
back of the others. -/
def Backend.delete {ID Idx : Type} [DecidableEq ID] (sc : Script ID Idx) (_ : GlobalOptions)
    (fileList : Finset ID) (t : FileType) (b : Backend ID) : CallResult (Backend ID) :=
  let keep : ID → Bool := fun id => decide (id ∉ fileList ∨ id ∈ sc.removeFails)
  ⟨if fileList ∩ sc.removeFails = ∅ then none else some sc.removeErr,
   match t with
   | .PackFile =>
     { b with packs := b.packs.filter keep, packs_nodup := b.packs_nodup.filter _ }
   | .IndexFile =>
     { b with indexes := b.indexes.filter keep, indexes_nodup := b.indexes_nodup.filter _ }⟩

/-- Modelled from the spec: the collaborators acting on the modelled backend;
opening and locking the repository leave the stored objects alone. -/
def specEnv {ID Idx : Type} [DecidableEq ID] (sc : Script ID Idx) : Env ID Idx (Backend ID) where
  OpenRepository := fun _ b => ⟨sc.openErr, b⟩
  lockRepoExclusive := fun b => ⟨sc.lockErr, b⟩
  unlockRepo := fun b => b
  New := Backend.scan sc
  Save := Backend.save sc
  DeleteFilesChecked := Backend.delete sc
  List := Backend.list sc

/-- A copy of an environment whose `index.New` reports the given list of
invalid packs and is otherwise unchanged. -/
def withInvalidFiles {ID Idx W : Type} (env : Env ID Idx W) (invalid : List ID) :
    Env ID Idx W :=
  { env with
    New := fun ignorePacks bar w => { env.New ignorePacks bar w with invalidFiles := invalid } }


/-! ## Recording what the collaborators receive -/

/-- Whether an event is a call of a collaborator (not a message printed by
`Verbosef` or `Printf`). -/
def Event.isCall {ID Idx : Type} : Event ID Idx → Bool
  | .Verbosef _ _ => false
  | .Printf _ _ => false
  | _ => true

/-- An environment that behaves as `env` on the first component of the world
and in which every collaborator appends, to the list kept in the second
component, the call it received: the arguments it was handed and the results
it returned. -/
def recording {ID Idx W : Type} (env : Env ID Idx W) :
    Env ID Idx (W × List (Event ID Idx)) where
  OpenRepository := fun gopts w =>
    ⟨(env.OpenRepository gopts w.1).err,
      ((env.OpenRepository gopts w.1).world,
        w.2 ++ [.OpenRepository gopts (env.OpenRepository gopts w.1).err])⟩
  lockRepoExclusive := fun w =>
    ⟨(env.lockRepoExclusive w.1).err,
      ((env.lockRepoExclusive w.1).world,
        w.2 ++ [.lockRepoExclusive (env.lockRepoExclusive w.1).err])⟩
  unlockRepo := fun w => (env.unlockRepo w.1, w.2 ++ [.unlockRepo])
  New := fun ignorePacks bar w =>
    ⟨(env.New ignorePacks bar w.1).idx, (env.New ignorePacks bar w.1).invalidFiles,
      (env.New ignorePacks bar w.1).err,
      ((env.New ignorePacks bar w.1).world,
        w.2 ++ [.New ignorePacks bar (env.New ignorePacks bar w.1).idx
          (env.New ignorePacks bar w.1).invalidFiles (env.New ignorePacks bar w.1).err])⟩
  Save := fun idx supersedes w =>
    ⟨(env.Save idx supersedes w.1).ids, (env.Save idx supersedes w.1).err,
      ((env.Save idx supersedes w.1).world,
        w.2 ++ [.Save idx supersedes (env.Save idx supersedes w.1).ids
          (env.Save idx supersedes w.1).err])⟩
  DeleteFilesChecked := fun gopts fileList t w =>
    ⟨(env.DeleteFilesChecked gopts fileList t w.1).err,
      ((env.DeleteFilesChecked gopts fileList t w.1).world,
        w.2 ++ [.DeleteFilesChecked gopts fileList t
          (env.DeleteFilesChecked gopts fileList t w.1).err])⟩
  List := fun t w =>
    ⟨(env.List t w.1).visited, (env.List t w.1).err,
      ((env.List t w.1).world, w.2 ++ [.ListFiles t (env.List t w.1).visited (env.List t w.1).err])⟩

/-- The calls the collaborators receive during `rebuildIndex env g ign w`, in
order, as recorded by the collaborators themselves. -/
def calls {ID Idx W : Type} [DecidableEq ID] (env : Env ID Idx W)
    (globalOptions : GlobalOptions) (ignorePacks : Finset ID) (w : W) : List (Event ID Idx) :=
  (rebuildIndex (recording env) globalOptions ignorePacks (w, [])).world.2

/-- The calls the collaborators receive during `runRebuildIndex env g gopts w`,
in order, as recorded by the collaborators themselves. -/
def commandCalls {ID Idx W : Type} [DecidableEq ID] (env : Env ID Idx W)
    (globalOptions gopts : GlobalOptions) (w : W) : List (Event ID Idx) :=
  (runRebuildIndex (recording env) globalOptions gopts (w, [])).world.2

/-! ## Concrete inputs -/

/-- A backend with three packs and two index objects. -/
def exampleBackend : Backend Nat := ⟨[10, 11, 12], [1, 2], by decide, by decide⟩

/-- A script in which every operation succeeds: pack `12` is reported invalid
and `Save` writes the shards `7` and `8`. -/
def exampleScript : Script Nat Unit where
  size := fun _ _ => 100
  listFault := fun _ => none
  idx := ()
  invalidFiles := [12]
  newErr := none
  written := [7, 8]
  saveErr := none
  removeFails := ∅
  removeErr := .ext 5
  openErr := none
  lockErr := none

/-- Options with the progress bar shown and verbosity 2. -/
def exampleOptions : GlobalOptions := ⟨false, 2⟩

/-- As `exampleScript`, but `Save` fails with error 3 after writing shard `7`. -/
def saveFailsScript : Script Nat Unit :=
  { exampleScript with written := [7], saveErr := some (.ext 3) }

/-- As `exampleScript`, but the removal of index object `2` fails. -/
def removeFailsScript : Script Nat Unit :=
  { exampleScript with removeFails := {2} }

/-- As `exampleScript`, but the pack listing fails with error 1 after one object. -/
def packListFailsScript : Script Nat Unit :=
  { exampleScript with
    listFault := fun t => match t with
      | .PackFile => some (1, .ext 1)
      | .IndexFile => none }

/-- An environment without state whose pack listing visits the given objects
and whose other operations succeed with empty results. -/
def listingEnv (packs : List (Nat × Int)) : Env Nat Unit Unit where
  OpenRepository := fun _ _ => ⟨none, ()⟩
  lockRepoExclusive := fun _ => ⟨none, ()⟩
  unlockRepo := fun _ => ()
  New := fun _ _ _ => ⟨(), [], none, ()⟩
  Save := fun _ _ _ => ⟨[], none, ()⟩
  DeleteFilesChecked := fun _ _ _ _ => ⟨none, ()⟩
  List := fun t _ => match t with
    | .PackFile => ⟨packs, none, ()⟩
    | .IndexFile => ⟨[], none, ()⟩


/-! ## Lemmas on the log and on the visitors -/

section Lemmas
variable {ID Idx W : Type}

theorem saveArgs_append (xs ys : List (Event ID Idx)) :
    saveArgs (xs ++ ys) = saveArgs xs ++ saveArgs ys := by
  induction xs with
  | nil => rfl
  | cons x xs ih => cases x <;> simp [saveArgs, ih]

theorem deleteArgs_append (xs ys : List (Event ID Idx)) :
    deleteArgs (xs ++ ys) = deleteArgs xs ++ deleteArgs ys := by
  induction xs with
  | nil => rfl
  | cons x xs ih => cases x <;> simp [deleteArgs, ih]

theorem newArgs_append (xs ys : List (Event ID Idx)) :
    newArgs (xs ++ ys) = newArgs xs ++ newArgs ys := by
  induction xs with
  | nil => rfl
  | cons x xs ih => cases x <;> simp [newArgs, ih]

theorem saveArgs_reportInvalid (g : GlobalOptions) (xs : List ID) :
    saveArgs (reportInvalid g xs : List (Event ID Idx)) = [] := by
  unfold reportInvalid
  split
  · induction xs with
    | nil => rfl
    | cons x xs ih => simpa [saveArgs] using ih
  · rfl

theorem deleteArgs_reportInvalid (g : GlobalOptions) (xs : List ID) :
    deleteArgs (reportInvalid g xs : List (Event ID Idx)) = [] := by
  unfold reportInvalid
  split
  · induction xs with
    | nil => rfl
    | cons x xs ih => simpa [deleteArgs] using ih
  · rfl

theorem newArgs_reportInvalid (g : GlobalOptions) (xs : List ID) :
    newArgs (reportInvalid g xs : List (Event ID Idx)) = [] := by
  unfold reportInvalid
  split
  · induction xs with
    | nil => rfl
    | cons x xs ih => simpa [newArgs] using ih
  · rfl

theorem foldl_collect (vs : List (ID × Int)) (acc : List ID) :
    vs.foldl collect acc = acc ++ vs.map Prod.fst := by
  induction vs generalizing acc with
  | nil => simp
  | cons v vs ih => simp [List.foldl, ih, collect]

theorem foldl_countPack (vs : List (ID × Int)) (n : Nat) :
    vs.foldl countPack n % 2 ^ 64 = (n + vs.length) % 2 ^ 64 := by
  induction vs generalizing n with
  | nil => simp
  | cons v vs ih =>
    simp only [List.foldl, List.length_cons, ih, countPack]
    omega

theorem foldl_countPack_zero (vs : List (ID × Int)) :
    vs.foldl countPack 0 = vs.length % 2 ^ 64 := by
  have h := foldl_countPack vs 0
  have h2 : vs.foldl countPack 0 < 2 ^ 64 := by
    cases vs using List.reverseRecOn with
    | nil => simp
    | append_singleton xs x =>
      simp only [List.foldl_append, List.foldl, countPack]
      omega
  rw [Nat.mod_eq_of_lt h2] at h
  simpa using h

theorem mem_reportInvalid (g : GlobalOptions) (xs : List ID) (e : Event ID Idx)
    (h : e ∈ (reportInvalid g xs : List (Event ID Idx))) : ∃ f a, e = .Printf f a := by
  unfold reportInvalid at h
  split at h
  · simp only [List.mem_map] at h
    obtain ⟨a, _, rfl⟩ := h
    exact ⟨_, _, rfl⟩
  · simp at h

theorem listFiles_not_mem_reportInvalid (g : GlobalOptions) (xs : List ID) (t : FileType)
    (vs : List (ID × Int)) (err : Option Error) :
    (Event.ListFiles t vs err : Event ID Idx) ∉ (reportInvalid g xs : List (Event ID Idx)) := by
  intro h
  obtain ⟨f, a, h⟩ := mem_reportInvalid g xs _ h
  cases h

theorem save_not_mem_reportInvalid (g : GlobalOptions) (xs : List ID) (idx : Idx)
    (sup ids : List ID) (err : Option Error) :
    (Event.Save idx sup ids err : Event ID Idx) ∉ (reportInvalid g xs : List (Event ID Idx)) := by
  intro h
  obtain ⟨f, a, h⟩ := mem_reportInvalid g xs _ h
  cases h

theorem map_fst_comp_sized (f : ID → Int) (l : List ID) :
    List.map (Prod.fst ∘ fun id => (id, f id)) l = l := by
  induction l with
  | nil => rfl
  | cons a l ih => simp [ih]

theorem map_fst_sized (f : ID → Int) (l : List ID) :
    List.map Prod.fst (List.map (fun id => (id, f id)) l) = l := by
  rw [List.map_map, map_fst_comp_sized]

theorem delete_not_mem_of_deleteArgs_nil (log : List (Event ID Idx))
    (h : deleteArgs log = []) (g : GlobalOptions) (fl : Finset ID) (t : FileType)
    (err : Option Error) : Event.DeleteFilesChecked g fl t err ∉ log := by
  induction log with
  | nil => simp
  | cons x xs ih =>
    intro hmem
    rcases List.mem_cons.mp hmem with rfl | h2
    · simp [deleteArgs] at h
    · cases x <;> simp [deleteArgs] at h <;> exact ih h h2

theorem uint64Sub_cast (n k : Nat) :
    ((uint64Sub (n % 2 ^ 64) (uint64OfInt k) : Nat) : Int) = ((n : Int) - (k : Int)) % 2 ^ 64 := by
  unfold uint64Sub uint64OfInt
  norm_num
  omega

theorem uint64Sub_of_le (n k : Nat) (hn : n < 2 ^ 64) (hk : k ≤ n) :
    uint64Sub (n % 2 ^ 64) (uint64OfInt k) = n - k := by
  unfold uint64Sub uint64OfInt
  norm_num at hn ⊢
  omega

theorem filter_isCall_reportInvalid (g : GlobalOptions) (xs : List ID) :
    (reportInvalid g xs : List (Event ID Idx)).filter Event.isCall = [] := by
  rw [List.filter_eq_nil_iff]
  intro e he
  obtain ⟨f, a, rfl⟩ := mem_reportInvalid g xs e he
  simp [Event.isCall]

theorem deleteArgs_filter_isCall (l : List (Event ID Idx)) :
    deleteArgs (l.filter Event.isCall) = deleteArgs l := by
  induction l with
  | nil => rfl
  | cons x xs ih => cases x <;> simp [List.filter, Event.isCall, deleteArgs, ih]

theorem newArgs_filter_isCall (l : List (Event ID Idx)) :
    newArgs (l.filter Event.isCall) = newArgs l := by
  induction l with
  | nil => rfl
  | cons x xs ih => cases x <;> simp [List.filter, Event.isCall, newArgs, ih]

theorem progress_eq_mod (q : Bool) (n k : Nat) :
    newProgressMax q (uint64Sub (n % 2 ^ 64) (uint64OfInt k)) "packs" =
      ⟨q, (((n : Int) - (k : Int)) % 2 ^ 64).toNat, "packs"⟩ := by
  rw [← uint64Sub_cast, Int.toNat_natCast]
  rfl

variable [DecidableEq ID]

/-- The six ways a run of `rebuildIndex` can end, with the log written out. -/
theorem rebuildIndex_cases (env : Env ID Idx W) (g : GlobalOptions) (ign : Finset ID) (w : W) :
    ∃ (vs : List (ID × Int)) (bar : Progress),
      vs = (env.List .PackFile w).visited ∧
      bar = newProgressMax (!g.Quiet)
        (uint64Sub (vs.length % 2 ^ 64) (uint64OfInt ign.card)) "packs" ∧
      ((∃ e w1, rebuildIndex env g ign w =
          ⟨some e, [.Verbosef "counting files in repo\n" [], .ListFiles .PackFile vs (some e)],
            w1⟩) ∨
       (∃ idx inv e w1, rebuildIndex env g ign w =
          ⟨some e, [.Verbosef "counting files in repo\n" [], .ListFiles .PackFile vs none,
            .New ign bar idx inv (some e)], w1⟩) ∨
       (∃ idx inv vs2 e w1, rebuildIndex env g ign w =
          ⟨some e, [.Verbosef "counting files in repo\n" [], .ListFiles .PackFile vs none,
            .New ign bar idx inv none] ++ reportInvalid g inv ++
            [.Verbosef "finding old index files\n" [], .ListFiles .IndexFile vs2 (some e)],
            w1⟩) ∨
       (∃ idx inv vs2 ids e w1, rebuildIndex env g ign w =
          ⟨some (.Fatalf "unable to save index, last error was: %v" e),
            [.Verbosef "counting files in repo\n" [], .ListFiles .PackFile vs none,
            .New ign bar idx inv none] ++ reportInvalid g inv ++
            [.Verbosef "finding old index files\n" [], .ListFiles .IndexFile vs2 none,
             .Save idx (vs2.map Prod.fst) ids (some e)], w1⟩) ∨
       (∃ idx inv vs2 ids e w1, rebuildIndex env g ign w =
          ⟨some (.Fatalf "unable to remove an old index: %v\n" e),
            [.Verbosef "counting files in repo\n" [], .ListFiles .PackFile vs none,
            .New ign bar idx inv none] ++ reportInvalid g inv ++
            [.Verbosef "finding old index files\n" [], .ListFiles .IndexFile vs2 none,
             .Save idx (vs2.map Prod.fst) ids none,
             .Verbosef "saved new indexes as %v\n" [.ids ids],
             .Verbosef "remove %d old index files\n" [.int (vs2.map Prod.fst).length],
             .DeleteFilesChecked g (NewIDSet (vs2.map Prod.fst)) .IndexFile (some e)], w1⟩) ∨
       (∃ idx inv vs2 ids w1, rebuildIndex env g ign w =
          ⟨none,
            [.Verbosef "counting files in repo\n" [], .ListFiles .PackFile vs none,
            .New ign bar idx inv none] ++ reportInvalid g inv ++
            [.Verbosef "finding old index files\n" [], .ListFiles .IndexFile vs2 none,
             .Save idx (vs2.map Prod.fst) ids none,
             .Verbosef "saved new indexes as %v\n" [.ids ids],
             .Verbosef "remove %d old index files\n" [.int (vs2.map Prod.fst).length],
             .DeleteFilesChecked g (NewIDSet (vs2.map Prod.fst)) .IndexFile none], w1⟩)) := by
  refine ⟨_, _, rfl, rfl, ?_⟩
  unfold rebuildIndex
  simp only [foldl_countPack_zero, foldl_collect, List.nil_append]
  generalize env.List .PackFile w = l1
  obtain ⟨vs1, e1, w1⟩ := l1
  cases e1 with
  | some e => exact Or.inl ⟨e, w1, rfl⟩
  | none =>
    dsimp only
    generalize env.New ign _ w1 = n
    obtain ⟨idx, inv, e2, w2⟩ := n
    cases e2 with
    | some e => exact Or.inr (Or.inl ⟨idx, inv, e, w2, rfl⟩)
    | none =>
      dsimp only
      generalize env.List .IndexFile w2 = l2
      obtain ⟨vs2, e3, w3⟩ := l2
      cases e3 with
      | some e => exact Or.inr (Or.inr (Or.inl ⟨idx, inv, vs2, e, w3, by simp⟩))
      | none =>
        dsimp only
        generalize env.Save idx _ w3 = sv
        obtain ⟨ids, e4, w4⟩ := sv
        cases e4 with
        | some e => exact Or.inr (Or.inr (Or.inr (Or.inl ⟨idx, inv, vs2, ids, e, w4, by simp⟩)))
        | none =>
          dsimp only
          generalize env.DeleteFilesChecked g _ _ w4 = d
          obtain ⟨e5, w5⟩ := d
          cases e5 with
          | some e =>
            exact Or.inr (Or.inr (Or.inr (Or.inr (Or.inl ⟨idx, inv, vs2, ids, e, w5, by simp⟩))))
          | none =>
            exact Or.inr (Or.inr (Or.inr (Or.inr (Or.inr ⟨idx, inv, vs2, ids, w5, by simp⟩))))

/-- A `Save` call directly follows the successful index listing that produced
its `supersedes` argument, and `DeleteFilesChecked` is called only after a
`Save` that returned no error, once, with that argument as a set. -/
theorem save_follows_index_listing (env : Env ID Idx W) (g : GlobalOptions) (ign : Finset ID)
    (w : W) (idx : Idx) (sup ids : List ID) (err : Option Error)
    (hsave : Event.Save idx sup ids err ∈ (rebuildIndex env g ign w).log) :
    ∃ pre vs post,
      (rebuildIndex env g ign w).log =
        pre ++ [.ListFiles .IndexFile vs none, .Save idx sup ids err] ++ post ∧
      sup = vs.map Prod.fst ∧ saveArgs pre = [] ∧ deleteArgs pre = [] ∧ saveArgs post = [] ∧
      (err ≠ none → post = []) ∧
      (err = none → ∃ derr, post =
        [.Verbosef "saved new indexes as %v\n" [.ids ids],
         .Verbosef "remove %d old index files\n" [.int sup.length],
         .DeleteFilesChecked g (NewIDSet sup) .IndexFile derr]) := by
  revert hsave
  obtain ⟨vs, bar, -, -, h⟩ := rebuildIndex_cases env g ign w
  rcases h with ⟨e, w1, h⟩ | ⟨idx0, inv, e, w1, h⟩ | ⟨idx0, inv, vs2, e, w1, h⟩ |
    ⟨idx0, inv, vs2, ids0, e, w1, h⟩ | ⟨idx0, inv, vs2, ids0, e, w1, h⟩ |
    ⟨idx0, inv, vs2, ids0, w1, h⟩
  · simp [h]
  · simp [h]
  · simp [h, save_not_mem_reportInvalid]
  · rw [h]
    intro hs
    have hs2 : idx = idx0 ∧ sup = vs2.map Prod.fst ∧ ids = ids0 ∧ err = some e := by
      simpa [save_not_mem_reportInvalid] using hs
    obtain ⟨rfl, rfl, rfl, rfl⟩ := hs2
    refine ⟨[.Verbosef "counting files in repo\n" [], .ListFiles .PackFile vs none,
      .New ign bar idx inv none] ++ reportInvalid g inv ++
      [.Verbosef "finding old index files\n" []], vs2, [], by simp, rfl, ?_, ?_, rfl, ?_, ?_⟩
    · simp [saveArgs, saveArgs_append, saveArgs_reportInvalid]
    · simp [deleteArgs, deleteArgs_append, deleteArgs_reportInvalid]
    · simp
    · simp
  · rw [h]
    intro hs
    have hs2 : idx = idx0 ∧ sup = vs2.map Prod.fst ∧ ids = ids0 ∧ err = none := by
      simpa [save_not_mem_reportInvalid] using hs
    obtain ⟨rfl, rfl, rfl, rfl⟩ := hs2
    refine ⟨[.Verbosef "counting files in repo\n" [], .ListFiles .PackFile vs none,
      .New ign bar idx inv none] ++ reportInvalid g inv ++
      [.Verbosef "finding old index files\n" []], vs2,
      [.Verbosef "saved new indexes as %v\n" [.ids ids],
       .Verbosef "remove %d old index files\n" [.int (vs2.map Prod.fst).length],
       .DeleteFilesChecked g (NewIDSet (vs2.map Prod.fst)) .IndexFile (some e)],
      by simp, rfl, ?_, ?_, ?_, ?_, ?_⟩
    · simp [saveArgs, saveArgs_append, saveArgs_reportInvalid]
    · simp [deleteArgs, deleteArgs_append, deleteArgs_reportInvalid]
    · simp [saveArgs]
    · simp
    · intro _; exact ⟨_, rfl⟩
  · rw [h]
    intro hs
    have hs2 : idx = idx0 ∧ sup = vs2.map Prod.fst ∧ ids = ids0 ∧ err = none := by
      simpa [save_not_mem_reportInvalid] using hs
    obtain ⟨rfl, rfl, rfl, rfl⟩ := hs2
    refine ⟨[.Verbosef "counting files in repo\n" [], .ListFiles .PackFile vs none,
      .New ign bar idx inv none] ++ reportInvalid g inv ++
      [.Verbosef "finding old index files\n" []], vs2,
      [.Verbosef "saved new indexes as %v\n" [.ids ids],
       .Verbosef "remove %d old index files\n" [.int (vs2.map Prod.fst).length],
       .DeleteFilesChecked g (NewIDSet (vs2.map Prod.fst)) .IndexFile none],
      by simp, rfl, ?_, ?_, ?_, ?_, ?_⟩
    · simp [saveArgs, saveArgs_append, saveArgs_reportInvalid]
    · simp [deleteArgs, deleteArgs_append, deleteArgs_reportInvalid]
    · simp [saveArgs]
    · simp
    · intro _; exact ⟨_, rfl⟩

theorem card_le_length_of_subset (ign : Finset ID) (l : List ID) (h : ∀ id ∈ ign, id ∈ l) :
    ign.card ≤ l.length := by
  have h1 : ign ⊆ l.toFinset := fun id hid => List.mem_toFinset.mpr (h id hid)
  exact (Finset.card_le_card h1).trans (List.toFinset_card_le l)

theorem length_filter_not_mem (ign : Finset ID) (vs : List (ID × Int))
    (h : ∀ id ∈ ign, id ∈ vs.map Prod.fst) (hnd : (vs.map Prod.fst).Nodup) :
    (vs.filter fun v => decide (v.1 ∉ ign)).length = vs.length - ign.card := by
  have h1 : ign ⊆ (vs.map Prod.fst).toFinset := fun id hid => List.mem_toFinset.mpr (h id hid)
  have h2 : (vs.filter fun v => decide (v.1 ∉ ign)).length =
      ((vs.map Prod.fst).filter fun id => decide (id ∉ ign)).length := by
    rw [List.filter_map, List.length_map]
    rfl
  have h3 : (((vs.map Prod.fst).filter fun id => decide (id ∉ ign)).toFinset) =
      (vs.map Prod.fst).toFinset \ ign := by
    ext id
    simp [List.mem_filter]
  have h4 := List.toFinset_card_of_nodup (hnd.filter fun id => decide (id ∉ ign))
  rw [h2, ← h4, h3, Finset.card_sdiff h1, List.toFinset_card_of_nodup hnd, List.length_map]

/-- The bar handed to `index.New` after a successful pack listing. -/
theorem newArgs_of_pack_listing (env : Env ID Idx W) (g : GlobalOptions) (ign : Finset ID)
    (w : W) (vs : List (ID × Int))
    (h : Event.ListFiles .PackFile vs none ∈ (rebuildIndex env g ign w).log) :
    newArgs (rebuildIndex env g ign w).log =
      [(ign, newProgressMax (!g.Quiet)
        (uint64Sub (vs.length % 2 ^ 64) (uint64OfInt ign.card)) "packs")] := by
  revert h
  obtain ⟨vs1, bar, -, hbar, h⟩ := rebuildIndex_cases env g ign w
  rcases h with ⟨e, w1, h⟩ | ⟨idx0, inv, e, w1, h⟩ | ⟨idx0, inv, vs2, e, w1, h⟩ |
    ⟨idx0, inv, vs2, ids0, e, w1, h⟩ | ⟨idx0, inv, vs2, ids0, e, w1, h⟩ |
    ⟨idx0, inv, vs2, ids0, w1, h⟩ <;>
  · rw [h]
    simp only [List.mem_append, List.mem_cons, listFiles_not_mem_reportInvalid,
      newArgs, newArgs_append, newArgs_reportInvalid]
    simp
    try (rintro rfl; simp [hbar, newArgs, newArgs_append, newArgs_reportInvalid])

/-- The final backend of a run on the modelled collaborators. -/
theorem spec_run_world (sc : Script ID Idx) (g : GlobalOptions) (ign : Finset ID)
    (b : Backend ID) :
    (rebuildIndex (specEnv sc) g ign b).world.packs = b.packs ∧
    (∀ sup ∈ saveArgs (rebuildIndex (specEnv sc) g ign b).log, sup = b.indexes) ∧
    (∀ idx sup ids, Event.Save idx sup ids none ∈ (rebuildIndex (specEnv sc) g ign b).log →
      ids = sc.written) ∧
    (deleteArgs (rebuildIndex (specEnv sc) g ign b).log = [] →
      ∀ id, id ∈ (rebuildIndex (specEnv sc) g ign b).world.indexes ↔
        id ∈ b.indexes ∨
          (saveArgs (rebuildIndex (specEnv sc) g ign b).log ≠ [] ∧ id ∈ sc.written)) ∧
    ((rebuildIndex (specEnv sc) g ign b).err = none →
      ∀ id, id ∈ (rebuildIndex (specEnv sc) g ign b).world.indexes ↔
        id ∈ sc.written ∧ id ∉ b.indexes) := by
  unfold rebuildIndex
  simp only [specEnv, Backend.list, Backend.scan, Backend.save, Backend.delete, foldl_collect,
    List.nil_append, map_fst_sized, Backend.files]
  rcases h1 : sc.listFault .PackFile with _ | ⟨n1, e1⟩
  · rcases h2 : sc.newErr with _ | e2
    · rcases h3 : sc.listFault .IndexFile with _ | ⟨n3, e3⟩
      · rcases h4 : sc.saveErr with _ | e4
        · by_cases h5 : NewIDSet b.indexes ∩ sc.removeFails = ∅
          · simp [saveArgs, deleteArgs, saveArgs_append, deleteArgs_append,
              saveArgs_reportInvalid, deleteArgs_reportInvalid, map_fst_comp_sized, h5,
              save_not_mem_reportInvalid]
            intro id
            have h6 : id ∈ b.indexes → id ∉ sc.removeFails := by
              intro hb hf
              have : id ∈ NewIDSet b.indexes ∩ sc.removeFails := by
                simp [NewIDSet, hb, hf]
              rw [h5] at this
              simp at this
            simp only [NewIDSet, List.mem_toFinset]
            tauto
          · simp [saveArgs, deleteArgs, saveArgs_append, deleteArgs_append,
              saveArgs_reportInvalid, deleteArgs_reportInvalid, map_fst_comp_sized, h5,
              save_not_mem_reportInvalid]
        · simp [saveArgs, deleteArgs, saveArgs_append, deleteArgs_append,
            saveArgs_reportInvalid, deleteArgs_reportInvalid, map_fst_comp_sized,
            save_not_mem_reportInvalid]
          intro id; tauto
      · simp [saveArgs, deleteArgs, saveArgs_append, deleteArgs_append,
          saveArgs_reportInvalid, deleteArgs_reportInvalid, save_not_mem_reportInvalid]
    · simp [saveArgs, deleteArgs]
  · simp [saveArgs, deleteArgs]

/-- A run on the recording environment is the run on the environment itself,
and the calls recorded are the collaborator calls of its log. -/
theorem rebuildIndex_recording (env : Env ID Idx W) (g : GlobalOptions) (ign : Finset ID)
    (w : W) (tr : List (Event ID Idx)) :
    rebuildIndex (recording env) g ign (w, tr) =
      ⟨(rebuildIndex env g ign w).err, (rebuildIndex env g ign w).log,
        ((rebuildIndex env g ign w).world,
          tr ++ (rebuildIndex env g ign w).log.filter Event.isCall)⟩ := by
  unfold rebuildIndex recording
  dsimp only
  generalize env.List .PackFile w = l1
  obtain ⟨vs1, e1, w1⟩ := l1
  cases e1 with
  | some e => simp [Event.isCall]
  | none =>
    dsimp only
    generalize env.New ign _ w1 = n
    obtain ⟨idx, inv, e2, w2⟩ := n
    cases e2 with
    | some e => simp [Event.isCall]
    | none =>
      dsimp only
      generalize env.List .IndexFile w2 = l2
      obtain ⟨vs2, e3, w3⟩ := l2
      cases e3 with
      | some e => simp [Event.isCall, filter_isCall_reportInvalid]
      | none =>
        dsimp only
        generalize env.Save idx _ w3 = sv
        obtain ⟨ids, e4, w4⟩ := sv
        cases e4 with
        | some e => simp [Event.isCall, filter_isCall_reportInvalid]
        | none =>
          dsimp only
          generalize env.DeleteFilesChecked g _ _ w4 = d
          obtain ⟨e5, w5⟩ := d
          cases e5 <;> simp [Event.isCall, filter_isCall_reportInvalid]

theorem calls_eq (env : Env ID Idx W) (g : GlobalOptions) (ign : Finset ID) (w : W) :
    calls env g ign w = (rebuildIndex env g ign w).log.filter Event.isCall := by
  unfold calls
  rw [rebuildIndex_recording]
  simp

/-- The pack listing is the first call, whatever it returns. -/
theorem pack_listing_mem_log (env : Env ID Idx W) (g : GlobalOptions) (ign : Finset ID) (w : W) :
    Event.ListFiles .PackFile (env.List .PackFile w).visited (env.List .PackFile w).err ∈
      (rebuildIndex env g ign w).log := by
  unfold rebuildIndex
  dsimp only
  generalize env.List .PackFile w = l1
  obtain ⟨vs1, e1, w1⟩ := l1
  cases e1 with
  | some e => simp
  | none =>
    dsimp only
    generalize env.New ign _ w1 = n
    obtain ⟨idx, inv, e2, w2⟩ := n
    cases e2 with
    | some e => simp
    | none =>
      dsimp only
      generalize env.List .IndexFile w2 = l2
      obtain ⟨vs2, e3, w3⟩ := l2
      cases e3 with
      | some e => simp
      | none =>
        dsimp only
        generalize env.Save idx _ w3 = sv
        obtain ⟨ids, e4, w4⟩ := sv
        cases e4 with
        | some e => simp
        | none =>
          dsimp only
          generalize env.DeleteFilesChecked g _ _ w4 = d
          obtain ⟨e5, w5⟩ := d
          cases e5 <;> simp

/-- The calls of the command when the repository opens and locks. -/
theorem commandCalls_eq (env : Env ID Idx W) (g gopts : GlobalOptions) (w : W)
    (ho : (env.OpenRepository gopts w).err = none)
    (hk : (env.lockRepoExclusive (env.OpenRepository gopts w).world).err = none) :
    commandCalls env g gopts w =
      [.OpenRepository gopts none, .lockRepoExclusive none] ++
        calls env g ∅ (env.lockRepoExclusive (env.OpenRepository gopts w).world).world ++
        [.unlockRepo] := by
  unfold commandCalls runRebuildIndex
  have h1 : (recording env).OpenRepository gopts (w, []) =
      ⟨(env.OpenRepository gopts w).err, ((env.OpenRepository gopts w).world,
        [.OpenRepository gopts (env.OpenRepository gopts w).err])⟩ := rfl
  have h2 : ∀ w1 tr, (recording env).lockRepoExclusive (w1, tr) =
      ⟨(env.lockRepoExclusive w1).err, ((env.lockRepoExclusive w1).world,
        tr ++ [.lockRepoExclusive (env.lockRepoExclusive w1).err])⟩ := fun _ _ => rfl
  have h3 : ∀ w1 tr, (recording env).unlockRepo (w1, tr) =
      (env.unlockRepo w1, tr ++ [.unlockRepo]) := fun _ _ => rfl
  simp only [h1, h2, h3, ho, hk, rebuildIndex_recording, calls_eq, NewIDSet, List.toFinset_nil]
  simp

end Lemmas

/-! ## The claims -/

section Claims
variable {ID Idx W : Type} [DecidableEq ID]

/-- C4 (as amended): on the modelled backend, a run that returns an error and in
which no `DeleteFilesChecked` call returned an error (the failure is in the pack
listing, `index.New`, the index listing or `Save`) never calls
`DeleteFilesChecked` and leaves every index object that existed before the run
in the backend. -/
theorem error_before_retirement_keeps_old_indexes (sc : Script ID Idx) (g : GlobalOptions)
    (ign : Finset ID) (b : Backend ID)
    (herr : (rebuildIndex (specEnv sc) g ign b).err ≠ none)
    (hstage : ∀ g2 fl t e, Event.DeleteFilesChecked g2 fl t (some e) ∉
      (rebuildIndex (specEnv sc) g ign b).log) :
    deleteArgs (rebuildIndex (specEnv sc) g ign b).log = [] ∧
    (∀ id, id ∈ b.indexes → id ∈ (rebuildIndex (specEnv sc) g ign b).world.indexes) ∧
    (rebuildIndex (specEnv sc) g ign b).world.packs = b.packs := by
  obtain ⟨hp, -, -, hw, -⟩ := spec_run_world sc g ign b
  have hd : deleteArgs (rebuildIndex (specEnv sc) g ign b).log = [] := by
    revert herr hstage
    obtain ⟨vs, bar, -, -, h⟩ := rebuildIndex_cases (specEnv sc) g ign b
    rcases h with ⟨e1, w1, h⟩ | ⟨idx0, inv, e1, w1, h⟩ | ⟨idx0, inv, vs2, e1, w1, h⟩ |
      ⟨idx0, inv, vs2, ids0, e1, w1, h⟩ | ⟨idx0, inv, vs2, ids0, e1, w1, h⟩ |
      ⟨idx0, inv, vs2, ids0, w1, h⟩
    · rw [h]; intros; simp [deleteArgs]
    · rw [h]; intros; simp [deleteArgs]
    · rw [h]; intros; simp [deleteArgs, deleteArgs_append, deleteArgs_reportInvalid]
    · rw [h]; intros; simp [deleteArgs, deleteArgs_append, deleteArgs_reportInvalid]
    · rw [h]
      intro _ hstage
      exact absurd (by simp) (hstage g (NewIDSet (vs2.map Prod.fst)) .IndexFile e1)
    · rw [h]
      intro herr
      exact absurd rfl herr
  exact ⟨hd, fun id hid => ((hw hd) id).mpr (Or.inl hid), hp⟩

/-- C6: with `l1`, `n`, `l2`, `s`, `d` the results of the pack listing, of
`index.New`, of the index listing, of `idx.Save` and of `DeleteFilesChecked`,
each called on the world its predecessor left and with the arguments the
command computes, `rebuildIndex` returns no error exactly when all five return
none; the first of them that returns an error makes `rebuildIndex` return an
error (that error for the listings and `index.New`, a fatal error built from it
for `Save` and `DeleteFilesChecked`); and once the repository is opened and
locked `runRebuildIndex` returns the error of `rebuildIndex`. -/
theorem success_iff_all_steps_succeed (env : Env ID Idx W) (g gopts : GlobalOptions)
    (ign : Finset ID) (w : W) :
    let l1 := env.List .PackFile w
    let n := env.New ign
      ⟨!g.Quiet, (((l1.visited.length : Int) - (ign.card : Int)) % 2 ^ 64).toNat, "packs"⟩
      l1.world
    let l2 := env.List .IndexFile n.world
    let s := env.Save n.idx (l2.visited.map Prod.fst) l2.world
    let d := env.DeleteFilesChecked g (l2.visited.map Prod.fst).toFinset .IndexFile s.world
    let o := env.OpenRepository gopts w
    let k := env.lockRepoExclusive o.world
    ((rebuildIndex env g ign w).err = none ↔
      l1.err = none ∧ n.err = none ∧ l2.err = none ∧ s.err = none ∧ d.err = none) ∧
    (∀ e, l1.err = some e → (rebuildIndex env g ign w).err = some e) ∧
    (∀ e, l1.err = none → n.err = some e → (rebuildIndex env g ign w).err = some e) ∧
    (∀ e, l1.err = none → n.err = none → l2.err = some e →
      (rebuildIndex env g ign w).err = some e) ∧
    (∀ e, l1.err = none → n.err = none → l2.err = none → s.err = some e →
      (rebuildIndex env g ign w).err =
        some (.Fatalf "unable to save index, last error was: %v" e)) ∧
    (∀ e, l1.err = none → n.err = none → l2.err = none → s.err = none → d.err = some e →
      (rebuildIndex env g ign w).err =
        some (.Fatalf "unable to remove an old index: %v\n" e)) ∧
    (o.err = none → k.err = none →
      (runRebuildIndex env g gopts w).err = (rebuildIndex env g ∅ k.world).err) := by
  dsimp only
  have hrun : (env.OpenRepository gopts w).err = none →
      (env.lockRepoExclusive (env.OpenRepository gopts w).world).err = none →
      (runRebuildIndex env g gopts w).err =
        (rebuildIndex env g ∅
          (env.lockRepoExclusive (env.OpenRepository gopts w).world).world).err := by
    intro ho hk
    unfold runRebuildIndex
    simp only [ho, hk, NewIDSet, List.toFinset_nil]
  refine ⟨?_, ?_, ?_, ?_, ?_, ?_, hrun⟩ <;>
  · unfold rebuildIndex
    simp only [foldl_countPack_zero, progress_eq_mod, foldl_collect, List.nil_append, NewIDSet]
    generalize env.List .PackFile w = l1
    obtain ⟨vs1, e1, w1⟩ := l1
    cases e1 with
    | some e => simp
    | none =>
      dsimp only
      generalize env.New ign _ w1 = n
      obtain ⟨idx, inv, e2, w2⟩ := n
      cases e2 with
      | some e => simp
      | none =>
        dsimp only
        generalize env.List .IndexFile w2 = l2
        obtain ⟨vs2, e3, w3⟩ := l2
        cases e3 with
        | some e => simp
        | none =>
          dsimp only
          generalize env.Save idx _ w3 = sv
          obtain ⟨ids, e4, w4⟩ := sv
          cases e4 with
          | some e => simp
          | none =>
            dsimp only
            generalize env.DeleteFilesChecked g _ _ w4 = d
            obtain ⟨e5, w5⟩ := d
            cases e5 <;> simp

/-- C8: the list of invalid packs reported by `index.New` has no influence on
the run beyond the messages printed: two runs that differ only in that list
return the same error, pass the same `supersedes` to `Save`, submit the same
set for deletion and end in the same world; so a run with invalid packs returns
an error only if the run without any does. -/
theorem invalid_packs_do_not_affect_outcome (env : Env ID Idx W) (g : GlobalOptions)
    (ign : Finset ID) (w : W) (inv1 inv2 : List ID) :
    (rebuildIndex (withInvalidFiles env inv1) g ign w).err =
      (rebuildIndex (withInvalidFiles env inv2) g ign w).err ∧
    saveArgs (rebuildIndex (withInvalidFiles env inv1) g ign w).log =
      saveArgs (rebuildIndex (withInvalidFiles env inv2) g ign w).log ∧
    deleteArgs (rebuildIndex (withInvalidFiles env inv1) g ign w).log =
      deleteArgs (rebuildIndex (withInvalidFiles env inv2) g ign w).log ∧
    (rebuildIndex (withInvalidFiles env inv1) g ign w).world =
      (rebuildIndex (withInvalidFiles env inv2) g ign w).world ∧
    ((rebuildIndex (withInvalidFiles env inv1) g ign w).err = none ↔
      (rebuildIndex (withInvalidFiles env []) g ign w).err = none) := by
  have key : ∀ a c : List ID,
      (rebuildIndex (withInvalidFiles env a) g ign w).err =
        (rebuildIndex (withInvalidFiles env c) g ign w).err ∧
      saveArgs (rebuildIndex (withInvalidFiles env a) g ign w).log =
        saveArgs (rebuildIndex (withInvalidFiles env c) g ign w).log ∧
      deleteArgs (rebuildIndex (withInvalidFiles env a) g ign w).log =
        deleteArgs (rebuildIndex (withInvalidFiles env c) g ign w).log ∧
      (rebuildIndex (withInvalidFiles env a) g ign w).world =
        (rebuildIndex (withInvalidFiles env c) g ign w).world := by
    intro a c
    unfold rebuildIndex withInvalidFiles
    dsimp only
    generalize env.List .PackFile w = l1
    obtain ⟨vs1, e1, w1⟩ := l1
    cases e1 with
    | some e => simp
    | none =>
      dsimp only
      generalize env.New ign _ w1 = n
      obtain ⟨idx, inv, e2, w2⟩ := n
      cases e2 with
      | some e => simp [saveArgs, deleteArgs]
      | none =>
        dsimp only
        generalize env.List .IndexFile w2 = l2
        obtain ⟨vs2, e3, w3⟩ := l2
        cases e3 with
        | some e =>
          simp [saveArgs, deleteArgs, saveArgs_append, deleteArgs_append,
            saveArgs_reportInvalid, deleteArgs_reportInvalid]
        | none =>
          dsimp only
          generalize env.Save idx _ w3 = sv
          obtain ⟨ids, e4, w4⟩ := sv
          cases e4 with
          | some e =>
            simp [saveArgs, deleteArgs, saveArgs_append, deleteArgs_append,
              saveArgs_reportInvalid, deleteArgs_reportInvalid]
          | none =>
            dsimp only
            generalize env.DeleteFilesChecked g _ _ w4 = d
            obtain ⟨e5, w5⟩ := d
            cases e5 <;>
            simp [saveArgs, deleteArgs, saveArgs_append, deleteArgs_append,
              saveArgs_reportInvalid, deleteArgs_reportInvalid]
  obtain ⟨h1, h2, h3, h4⟩ := key inv1 inv2
  exact ⟨h1, h2, h3, h4, by rw [(key inv1 []).1]⟩

/-- C9: when `idx.Save` has returned no error, the calls the collaborators
receive end with the index listing, that `Save` call and one
`DeleteFilesChecked` call: it is the only one of the run, it comes after `Save`
has returned, it is for the object type `IndexFile`, and the set it receives is
the set of the identifiers of the `supersedes` list that `Save` received, which
is the result of the index listing. -/
theorem retirement_submits_exactly_snapshot (env : Env ID Idx W) (g : GlobalOptions)
    (ign : Finset ID) (w : W) (idx : Idx) (sup ids : List ID)
    (hsave : Event.Save idx sup ids none ∈ calls env g ign w) :
    ∃ pre vs derr,
      calls env g ign w =
        pre ++ [.ListFiles .IndexFile vs none, .Save idx sup ids none,
          .DeleteFilesChecked g (NewIDSet sup) .IndexFile derr] ∧
      sup = vs.map Prod.fst ∧
      deleteArgs pre = [] ∧
      deleteArgs (calls env g ign w) = [(NewIDSet sup, .IndexFile)] ∧
      ∀ id, id ∈ NewIDSet sup ↔ id ∈ sup := by
  have hcalls : ∀ (ign1 : Finset ID) (w1 : _),
      calls env g ign1 w1 = (rebuildIndex env g ign1 w1).log.filter Event.isCall := by
    intro ign1 w1
    unfold calls rebuildIndex recording
    dsimp only
    generalize (env).List .PackFile w1 = l1
    obtain ⟨vs1, e1, w2⟩ := l1
    cases e1 with
    | some e => simp [Event.isCall]
    | none =>
      dsimp only
      generalize (env).New ign1 _ w2 = n
      obtain ⟨idx1, inv, e2, w3⟩ := n
      cases e2 with
      | some e => simp [Event.isCall]
      | none =>
        dsimp only
        generalize (env).List .IndexFile w3 = l2
        obtain ⟨vs2, e3, w4⟩ := l2
        cases e3 with
        | some e => simp [Event.isCall, filter_isCall_reportInvalid]
        | none =>
          dsimp only
          generalize (env).Save idx1 _ w4 = sv
          obtain ⟨ids1, e4, w5⟩ := sv
          cases e4 with
          | some e => simp [Event.isCall, filter_isCall_reportInvalid]
          | none =>
            dsimp only
            generalize (env).DeleteFilesChecked g _ _ w5 = d
            obtain ⟨e5, w6⟩ := d
            cases e5 <;> simp [Event.isCall, filter_isCall_reportInvalid]
  have hlogmem : Event.Save idx sup ids none ∈ (rebuildIndex env g ign w).log := by
    rw [hcalls] at hsave
    exact (List.mem_filter.mp hsave).1
  obtain ⟨pre, vs, post, hlog, hvs, -, hpre, -, -, hpost⟩ :=
    save_follows_index_listing env g ign w idx sup ids none hlogmem
  obtain ⟨derr, hpost⟩ := hpost rfl
  refine ⟨pre.filter Event.isCall, vs, derr, ?_, hvs, ?_, ?_, ?_⟩
  · rw [hcalls, hlog, hpost]
    simp [List.filter_append, List.filter, Event.isCall]
  · rw [deleteArgs_filter_isCall, hpre]
  · rw [hcalls, deleteArgs_filter_isCall, hlog, hpost]
    simp [deleteArgs_append, hpre, deleteArgs]
  · intro id
    simp [NewIDSet]

/-- C10 (as amended): after a successful pack listing that visited `n` objects,
the progress bar that `index.New` receives has the maximum `n - k` modulo
`2 ^ 64`, where `k` is the size of the ignore set.  When all ignored
identifiers are among the visited ones then `k ≤ n`, and if `n < 2 ^ 64` the
maximum is `n - k`; if moreover the visited identifiers are pairwise distinct,
the maximum is the number of visited packs that are not ignored.  In
`runRebuildIndex` the ignore set is empty and the maximum is `n` modulo
`2 ^ 64`, which is `n` when `n < 2 ^ 64`. -/
theorem progress_total_is_uint64_difference (env : Env ID Idx W) (g gopts : GlobalOptions)
    (ign : Finset ID) (w : W) :
    let l1 := env.List .PackFile w
    let n := l1.visited.length
    let o := env.OpenRepository gopts w
    let k := env.lockRepoExclusive o.world
    let p := env.List .PackFile k.world
    (l1.err = none →
      newArgs (calls env g ign w) =
        [(ign, ⟨!g.Quiet, (((n : Int) - (ign.card : Int)) % 2 ^ 64).toNat, "packs"⟩)]) ∧
    ((∀ id ∈ ign, id ∈ l1.visited.map Prod.fst) → ign.card ≤ n) ∧
    (l1.err = none → n < 2 ^ 64 → (∀ id ∈ ign, id ∈ l1.visited.map Prod.fst) →
      newArgs (calls env g ign w) = [(ign, ⟨!g.Quiet, n - ign.card, "packs"⟩)]) ∧
    (l1.err = none → n < 2 ^ 64 → (∀ id ∈ ign, id ∈ l1.visited.map Prod.fst) →
      (l1.visited.map Prod.fst).Nodup →
      newArgs (calls env g ign w) =
        [(ign, ⟨!g.Quiet, (l1.visited.filter fun v => decide (v.1 ∉ ign)).length, "packs"⟩)]) ∧
    (o.err = none → k.err = none → p.err = none →
      newArgs (commandCalls env g gopts w) =
        [(∅, ⟨!g.Quiet, p.visited.length % 2 ^ 64, "packs"⟩)]) ∧
    (o.err = none → k.err = none → p.err = none → p.visited.length < 2 ^ 64 →
      newArgs (commandCalls env g gopts w) = [(∅, ⟨!g.Quiet, p.visited.length, "packs"⟩)]) := by
  dsimp only
  have hcalls : ∀ (ign1 : Finset ID) (w1 : _),
      calls env g ign1 w1 = (rebuildIndex env g ign1 w1).log.filter Event.isCall := by
    intro ign1 w1
    unfold calls rebuildIndex recording
    dsimp only
    generalize (env).List .PackFile w1 = l1
    obtain ⟨vs1, e1, w2⟩ := l1
    cases e1 with
    | some e => simp [Event.isCall]
    | none =>
      dsimp only
      generalize (env).New ign1 _ w2 = n
      obtain ⟨idx1, inv, e2, w3⟩ := n
      cases e2 with
      | some e => simp [Event.isCall]
      | none =>
        dsimp only
        generalize (env).List .IndexFile w3 = l2
        obtain ⟨vs2, e3, w4⟩ := l2
        cases e3 with
        | some e => simp [Event.isCall, filter_isCall_reportInvalid]
        | none =>
          dsimp only
          generalize (env).Save idx1 _ w4 = sv
          obtain ⟨ids1, e4, w5⟩ := sv
          cases e4 with
          | some e => simp [Event.isCall, filter_isCall_reportInvalid]
          | none =>
            dsimp only
            generalize (env).DeleteFilesChecked g _ _ w5 = d
            obtain ⟨e5, w6⟩ := d
            cases e5 <;> simp [Event.isCall, filter_isCall_reportInvalid]
  have hbar : ∀ (q : Bool) (x : Nat), newProgressMax q x "packs" = ⟨q, x, "packs"⟩ :=
    fun _ _ => rfl
  have hnew : ∀ (ign1 : Finset ID) (w1 : W), (env.List .PackFile w1).err = none →
      newArgs (calls env g ign1 w1) =
        [(ign1, ⟨!g.Quiet,
          ((((env.List .PackFile w1).visited.length : Int) - (ign1.card : Int)) % 2 ^ 64).toNat,
          "packs"⟩)] := by
    intro ign1 w1 h
    have hmem := pack_listing_mem_log env g ign1 w1
    rw [h] at hmem
    rw [hcalls, newArgs_filter_isCall, newArgs_of_pack_listing env g ign1 w1 _ hmem, hbar,
      ← uint64Sub_cast, Int.toNat_natCast]
  have hle : (∀ id ∈ ign, id ∈ (env.List .PackFile w).visited.map Prod.fst) →
      ign.card ≤ (env.List .PackFile w).visited.length := by
    intro hsub
    have hk := card_le_length_of_subset ign _ hsub
    rwa [List.length_map] at hk
  have hnowrap : ∀ m c : Nat, m < 2 ^ 64 → c ≤ m →
      (((m : Int) - (c : Int)) % 2 ^ 64).toNat = m - c := by
    intro m c hm hc
    rw [← uint64Sub_cast, Int.toNat_natCast]
    exact uint64Sub_of_le m c hm hc
  have hcmd : (env.OpenRepository gopts w).err = none →
      (env.lockRepoExclusive (env.OpenRepository gopts w).world).err = none →
      (env.List .PackFile
        (env.lockRepoExclusive (env.OpenRepository gopts w).world).world).err = none →
      newArgs (commandCalls env g gopts w) =
        [(∅, ⟨!g.Quiet, (env.List .PackFile
          (env.lockRepoExclusive (env.OpenRepository gopts w).world).world).visited.length
            % 2 ^ 64, "packs"⟩)] := by
    intro ho hk hp
    rw [commandCalls_eq env g gopts w ho hk, newArgs_append, newArgs_append,
      hnew ∅ _ hp]
    have hmod : ∀ m : Nat, ((m : Int) % 2 ^ 64).toNat = m % 2 ^ 64 := by
      intro m
      omega
    simp only [newArgs, List.nil_append, List.append_nil, Finset.card_empty, Nat.cast_zero,
      sub_zero, hmod]
  refine ⟨hnew ign w, hle, ?_, ?_, hcmd, ?_⟩
  · intro h hn hsub
    rw [hnew ign w h, hnowrap _ _ hn (hle hsub)]
  · intro h hn hsub hnd
    rw [hnew ign w h, hnowrap _ _ hn (hle hsub),
      length_filter_not_mem ign _ hsub hnd]
  · intro ho hk hp hn
    rw [hcmd ho hk hp, Nat.mod_eq_of_lt hn]

end Claims

/-! ## The claims at concrete inputs -/

/-- C4 as stated fails: the run returns an error (the removal of index object
`2` fails) and index object `1`, which existed before the run, has been deleted. -/
theorem failed_retirement_deletes_old_index :
    (rebuildIndex (specEnv removeFailsScript) exampleOptions ∅ exampleBackend).err ≠ none ∧
    1 ∈ exampleBackend.indexes ∧
    1 ∉ (rebuildIndex (specEnv removeFailsScript) exampleOptions ∅ exampleBackend).world.indexes := by
  decide

/-- C4 (as amended) at a run whose `Save` fails. -/
theorem error_before_retirement_keeps_old_indexes_witness :
    (rebuildIndex (specEnv saveFailsScript) exampleOptions ∅ exampleBackend).err ≠ none ∧
    deleteArgs (rebuildIndex (specEnv saveFailsScript) exampleOptions ∅ exampleBackend).log = [] ∧
    (∀ id, id ∈ exampleBackend.indexes →
      id ∈ (rebuildIndex (specEnv saveFailsScript) exampleOptions ∅ exampleBackend).world.indexes) :=
  have h := error_before_retirement_keeps_old_indexes saveFailsScript exampleOptions ∅
    exampleBackend (by decide)
    (fun g2 fl t e => delete_not_mem_of_deleteArgs_nil _ (by decide) g2 fl t (some e))
  ⟨by decide, h.1, h.2.1⟩

/-- C6 at a run in which all five steps return none, at a run whose `Save`
fails, at a run whose pack listing fails, and at the command. -/
theorem success_iff_all_steps_succeed_witness :
    (((specEnv exampleScript).List .PackFile exampleBackend).err = none ∧
      (Backend.save exampleScript () [1, 2] exampleBackend).err = none ∧
      (rebuildIndex (specEnv exampleScript) exampleOptions ∅ exampleBackend).err = none) ∧
    ((Backend.save saveFailsScript () [1, 2] exampleBackend).err = some (.ext 3) ∧
      (rebuildIndex (specEnv saveFailsScript) exampleOptions ∅ exampleBackend).err =
        some (.Fatalf "unable to save index, last error was: %v" (.ext 3))) ∧
    (((specEnv packListFailsScript).List .PackFile exampleBackend).err = some (.ext 1) ∧
      (rebuildIndex (specEnv packListFailsScript) exampleOptions ∅ exampleBackend).err =
        some (.ext 1)) ∧
    (runRebuildIndex (specEnv saveFailsScript) exampleOptions exampleOptions
        exampleBackend).err =
      (rebuildIndex (specEnv saveFailsScript) exampleOptions ∅ exampleBackend).err :=
  ⟨⟨by decide, by decide,
      (success_iff_all_steps_succeed (specEnv exampleScript) exampleOptions exampleOptions ∅
        exampleBackend).1.mpr (by decide)⟩,
    ⟨by decide,
      (success_iff_all_steps_succeed (specEnv saveFailsScript) exampleOptions exampleOptions ∅
        exampleBackend).2.2.2.2.1 (.ext 3) (by decide) (by decide) (by decide) (by decide)⟩,
    ⟨by decide,
      (success_iff_all_steps_succeed (specEnv packListFailsScript) exampleOptions
        exampleOptions ∅ exampleBackend).2.1 (.ext 1) (by decide)⟩,
    (success_iff_all_steps_succeed (specEnv saveFailsScript) exampleOptions exampleOptions ∅
      exampleBackend).2.2.2.2.2.2 (by decide) (by decide)⟩

/-- C9 at a successful run: `DeleteFilesChecked` receives the set of `[1, 2]`,
the list `Save` received, and afterwards index objects `1` and `2` are gone. -/
theorem retirement_submits_exactly_snapshot_witness :
    Event.Save () [1, 2] [7, 8] none ∈
      calls (specEnv exampleScript) exampleOptions ∅ exampleBackend ∧
    deleteArgs (calls (specEnv exampleScript) exampleOptions ∅ exampleBackend) =
      [(NewIDSet [1, 2], .IndexFile)] ∧
    Event.DeleteFilesChecked exampleOptions (NewIDSet [1, 2]) .IndexFile none ∈
      calls (specEnv exampleScript) exampleOptions ∅ exampleBackend ∧
    (rebuildIndex (specEnv exampleScript) exampleOptions ∅ exampleBackend).world.indexes =
      [7, 8] :=
  ⟨by decide,
    (retirement_submits_exactly_snapshot (specEnv exampleScript) exampleOptions ∅
      exampleBackend () [1, 2] [7, 8] (by decide)).elim
      fun _ h => h.elim fun _ h => h.elim fun _ h => h.2.2.2.1,
    by decide, by decide⟩

/-- C10 as stated fails: the pack listing visits pack `10` twice, the ignore set
`{10}` lies within the listed packs, `index.New` receives the maximum `1`, and
no listed pack is outside the ignore set. -/
theorem progress_total_differs_from_inventory :
    ((listingEnv [(10, 100), (10, 100)]).List .PackFile ()).visited =
      [(10, 100), (10, 100)] ∧
    (∀ id ∈ ({10} : Finset Nat), id ∈ ([(10, 100), (10, 100)] : List (Nat × Int)).map Prod.fst) ∧
    newArgs (calls (listingEnv [(10, 100), (10, 100)]) exampleOptions {10} ()) =
      [({10}, ⟨true, 1, "packs"⟩)] ∧
    (([(10, 100), (10, 100)] : List (Nat × Int)).filter
      fun v => decide (v.1 ∉ ({10} : Finset Nat))).length = 0 := by
  decide

/-- C10 (as amended) at a run over three packs of which pack `10` is ignored
(maximum 2, the two packs that are not ignored), and at the command (maximum 3). -/
theorem progress_total_is_uint64_difference_witness :
    ((specEnv exampleScript).List .PackFile exampleBackend).err = none ∧
    ((specEnv exampleScript).List .PackFile exampleBackend).visited =
      [(10, 100), (11, 100), (12, 100)] ∧
    newArgs (calls (specEnv exampleScript) exampleOptions {10} exampleBackend) =
      [({10}, ⟨true, 2, "packs"⟩)] ∧
    Event.New {10} ⟨true, 2, "packs"⟩ () [12] none ∈
      calls (specEnv exampleScript) exampleOptions {10} exampleBackend ∧
    (([(10, 100), (11, 100), (12, 100)] : List (Nat × Int)).filter
      fun v => decide (v.1 ∉ ({10} : Finset Nat))).length = 2 ∧
    newArgs (commandCalls (specEnv exampleScript) exampleOptions exampleOptions
      exampleBackend) = [(∅, ⟨true, 3, "packs"⟩)] ∧
    Event.New ∅ ⟨true, 3, "packs"⟩ () [12] none ∈
      commandCalls (specEnv exampleScript) exampleOptions exampleOptions exampleBackend :=
  have h := progress_total_is_uint64_difference (specEnv exampleScript) exampleOptions
    exampleOptions {10} exampleBackend
  ⟨by decide, by decide,
    h.2.2.2.1 (by decide) (by decide) (by decide) (by decide),
    by decide, by decide,
    h.2.2.2.2.2 (by decide) (by decide) (by decide) (by decide),
    by decide⟩

end Restic
